import Mathlib

/-!
Shallow embedding of `src/create.py` (card-sheet-maker).

The program has two functions:
* `create_print_sheet(image_path, output_dir, copies=9, page_size=(8.5,11), dpi=300)` —
  computes a square grid layout, resizes the image to fit a cell preserving aspect
  ratio, and pastes `grid_size²` copies onto a white page.
* `process_directory(input_dir, output_dir, copies=9)` — loops over image files,
  calls `create_print_sheet` on each, counts successes, prints `Processed N images`.

Modelling decisions:
* Python floats are modelled as exact rationals (`ℚ`).  Every float value the
  claims exercise (products of small decimals with integer dpi, ratios used only
  in comparisons and in floors whose arguments are far from integer boundaries)
  is computed exactly or robustly by IEEE doubles, so exact rational arithmetic
  agrees with the Python float arithmetic on the quantities stated here.
* `int(x)` (Python truncation toward zero) is `pyInt`.
* `//` on Python ints is floor division, `Int.fdiv`.
* `int(math.sqrt(copies))` for `copies ≥ 0` is modelled as `Nat.sqrt` (exact
  integer square root); `math.sqrt` of a negative raises `ValueError`.
* Operations that raise in Python (`ZeroDivisionError` from `/` or `//` by zero,
  `ValueError` from `math.sqrt` of a negative) are modelled in `Except PyError`,
  with guards placed at the same program points (in source order) where Python
  would raise.
* `Image.open` is modelled by a `DecodeResult`: either a decoded image of known
  pixel dimensions, or a decode failure (corrupt file).  The `try/except` around
  `Image.open` in the source catches exactly decode failures and returns `False`.
* `create_print_sheet` returns `Option LayoutResult` inside `Except`:
  `some layout` models `return True` (with the computed geometry observable),
  `none` models `return False` after a caught decode error.
* `process_directory` returns the printed summary line (the Python function
  returns `None`; its observable result is the `Processed N images` print).
-/

namespace CardSheet

/-- Python `int(x)` on a real value: truncation toward zero. -/
def pyInt (q : ℚ) : ℤ :=
  if q < 0 then ⌈q⌉ else ⌊q⌋

/-- Modelled from the spec: `round(x)` to the nearest integer (the spec's steps 1
and 3 say `page_px = round(page_inches * dpi)` and `margin_px = round(0.25*dpi)`).
Ties round up; the concrete comparisons below do not involve ties between the
conventions. -/
def spec_round (q : ℚ) : ℤ :=
  ⌊q + 1/2⌋

/-- Exceptions the Python code can raise on the paths modelled here. -/
inductive PyError where
  /-- `math.sqrt` of a negative argument (line 22, `copies < 0`). -/
  | valueError
  /-- Division by zero: `available // grid_size` with `grid_size == 0` (line 37),
  `img.width / img.height` with zero height (line 42), or
  `card_width / card_height` with `card_height == 0` (line 43). -/
  | zeroDivisionError
  deriving Repr, DecidableEq

/-- Outcome of `Image.open` on one file: a decoded image with its pixel
dimensions, or a decode failure. -/
inductive DecodeResult where
  | ok (width height : ℕ)
  | fail
  deriving Repr, DecidableEq

/-- All geometry computed by `create_print_sheet` for one sheet (lines 17-67). -/
structure LayoutResult where
  pageWidthPx : ℤ
  pageHeightPx : ℤ
  marginPx : ℤ
  availableWidth : ℤ
  availableHeight : ℤ
  gridSize : ℕ
  cardWidth : ℤ
  cardHeight : ℤ
  newWidth : ℤ
  newHeight : ℤ
  placements : List (ℤ × ℤ)
  deriving Repr, DecidableEq

/-- Lines 18-19: `page_width_px = int(page_size[0] * dpi)` (and the same for
height). -/
def page_px (inches dpi : ℚ) : ℤ :=
  pyInt (inches * dpi)

/-- Line 33: `margin_px = int(0.25 * dpi)`. -/
def margin_px (dpi : ℚ) : ℤ :=
  pyInt ((0.25 : ℚ) * dpi)

/-- Lines 42-52: aspect-ratio preserving resize target dimensions.
`img_aspect = img.width / img.height`, `card_aspect = card_width / card_height`;
if the image is relatively wider, fit to the card width, else to the card
height.  (The zero-height guards live in `compute_layout`; here division by
zero is rational division, never reached under those guards.) -/
def resize_dims (imgW imgH : ℕ) (cardWidth cardHeight : ℤ) : ℤ × ℤ :=
  let imgAspect : ℚ := (imgW : ℚ) / (imgH : ℚ)
  let cardAspect : ℚ := (cardWidth : ℚ) / (cardHeight : ℚ)
  if imgAspect > cardAspect then
    (cardWidth, pyInt ((cardWidth : ℚ) / imgAspect))
  else
    (pyInt ((cardHeight : ℚ) * imgAspect), cardHeight)

/-- Lines 60-67: the nested `for row / for col` loop, row-major; per cell the
top-left paste position
`(margin + col*card_w + (card_w − new_w)//2, margin + row*card_h + (card_h − new_h)//2)`. -/
def placements_of (gridSize : ℕ) (cardWidth cardHeight marginPx newWidth newHeight : ℤ) :
    List (ℤ × ℤ) :=
  (List.range gridSize).flatMap (fun (row : ℕ) =>
    (List.range gridSize).map (fun (col : ℕ) =>
      (marginPx + (col : ℤ) * cardWidth + Int.fdiv (cardWidth - newWidth) 2,
       marginPx + (row : ℤ) * cardHeight + Int.fdiv (cardHeight - newHeight) 2)))

/-- Lines 31-67 of `create_print_sheet`, after the image has been decoded:
margins, available area, integer cell sizes (`//` raises `ZeroDivisionError`
when `grid_size == 0`), aspect computation (raises on a zero divisor), resize
dimensions and the list of paste placements. -/
def compute_layout (imgW imgH gridSize : ℕ) (pageWidthPx pageHeightPx : ℤ) (dpi : ℚ) :
    Except PyError LayoutResult :=
  let marginPx := margin_px dpi
  let availableWidth := pageWidthPx - 2 * marginPx
  let availableHeight := pageHeightPx - 2 * marginPx
  if gridSize = 0 then Except.error PyError.zeroDivisionError else
  let cardWidth := Int.fdiv availableWidth (gridSize : ℤ)
  let cardHeight := Int.fdiv availableHeight (gridSize : ℤ)
  if imgH = 0 then Except.error PyError.zeroDivisionError else
  if cardHeight = 0 then Except.error PyError.zeroDivisionError else
  let nwh := resize_dims imgW imgH cardWidth cardHeight
  Except.ok
    { pageWidthPx := pageWidthPx
      pageHeightPx := pageHeightPx
      marginPx := marginPx
      availableWidth := availableWidth
      availableHeight := availableHeight
      gridSize := gridSize
      cardWidth := cardWidth
      cardHeight := cardHeight
      newWidth := nwh.1
      newHeight := nwh.2
      placements := placements_of gridSize cardWidth cardHeight marginPx nwh.1 nwh.2 }

/-- `create_print_sheet` (lines 6-76).  Page pixels (lines 18-19) and
`grid_size = int(math.sqrt(copies))` (line 22, `ValueError` for negative
`copies`) are computed before `Image.open` (line 26); a decode failure is
caught and yields `False` (`.ok none`); otherwise the layout of lines 31-67
runs and `True` (`.ok (some layout)`) is returned. -/
def create_print_sheet (file : DecodeResult) (copies : ℤ) (pageW pageH dpi : ℚ) :
    Except PyError (Option LayoutResult) :=
  let pageWidthPx := page_px pageW dpi
  let pageHeightPx := page_px pageH dpi
  if copies < 0 then Except.error PyError.valueError else
  let gridSize := Nat.sqrt copies.toNat
  match file with
  | DecodeResult.fail => Except.ok none
  | DecodeResult.ok imgW imgH =>
      (compute_layout imgW imgH gridSize pageWidthPx pageHeightPx dpi).map some

/-- Lines 85-93 of `process_directory`: fold over the (extension-filtered)
directory entries, incrementing `processed` when `create_print_sheet` returns
`True`; an exception escaping `create_print_sheet` propagates and aborts the
loop.  The result models the printed summary `Processed {processed} images`
(the Python function itself returns `None`). -/
def process_directory (files : List DecodeResult) (copies : ℤ) : Except PyError String :=
  (files.foldlM
    (fun processed file =>
      (create_print_sheet file copies 8.5 11 300).map
        (fun r => if r.isSome then processed + 1 else processed))
    0).map
    (fun processed => "Processed " ++ toString processed ++ " images")

/-- The layout `create_print_sheet` computes for a 400×200 image with the
default configuration (`copies = 9`, 8.5×11 page, 300 dpi). -/
def layout400 : LayoutResult :=
  { pageWidthPx := 2550
    pageHeightPx := 3300
    marginPx := 75
    availableWidth := 2400
    availableHeight := 3150
    gridSize := 3
    cardWidth := 800
    cardHeight := 1050
    newWidth := 800
    newHeight := 400
    placements :=
      [(75, 400), (875, 400), (1675, 400),
       (75, 1450), (875, 1450), (1675, 1450),
       (75, 2500), (875, 2500), (1675, 2500)] }

/-- The layout `create_print_sheet` computes under the default configuration
(8.5×11 page, 300 dpi) for a `w×h` image and grid side `g`, whenever none of
the guards fire; proved equal to the function's result in `create_default_eq`. -/
def default_layout (w h g : ℕ) : LayoutResult :=
  { pageWidthPx := 2550
    pageHeightPx := 3300
    marginPx := 75
    availableWidth := 2400
    availableHeight := 3150
    gridSize := g
    cardWidth := Int.fdiv 2400 (g : ℤ)
    cardHeight := Int.fdiv 3150 (g : ℤ)
    newWidth := (resize_dims w h (Int.fdiv 2400 (g : ℤ)) (Int.fdiv 3150 (g : ℤ))).1
    newHeight := (resize_dims w h (Int.fdiv 2400 (g : ℤ)) (Int.fdiv 3150 (g : ℤ))).2
    placements := placements_of g (Int.fdiv 2400 (g : ℤ)) (Int.fdiv 3150 (g : ℤ)) 75
      (resize_dims w h (Int.fdiv 2400 (g : ℤ)) (Int.fdiv 3150 (g : ℤ))).1
      (resize_dims w h (Int.fdiv 2400 (g : ℤ)) (Int.fdiv 3150 (g : ℤ))).2 }

theorem pyInt_of_nonneg {q : ℚ} (h : 0 ≤ q) : pyInt q = ⌊q⌋ := by
  unfold pyInt
  rw [if_neg (not_lt.mpr h)]

theorem sqrt_eq_of {a n : ℕ} (h1 : a * a ≤ n) (h2 : n < (a + 1) * (a + 1)) :
    Nat.sqrt n = a :=
  (Nat.eq_sqrt.mpr ⟨h1, h2⟩).symm

theorem page_px_85 : page_px 8.5 300 = 2550 := by
  norm_num [page_px, pyInt]

theorem page_px_11 : page_px 11 300 = 3300 := by
  norm_num [page_px, pyInt]

theorem margin_px_300 : margin_px 300 = 75 := by
  norm_num [margin_px, pyInt]

theorem create_fail_eq (copies : ℤ) (pageW pageH dpi : ℚ) (h0 : 0 ≤ copies) :
    create_print_sheet DecodeResult.fail copies pageW pageH dpi = Except.ok none := by
  unfold create_print_sheet
  rw [if_neg (not_lt.mpr h0)]

theorem create_default_eq (w h : ℕ) (copies : ℤ) (h0 : 0 ≤ copies)
    (hg : Nat.sqrt copies.toNat ≠ 0) (hh : h ≠ 0)
    (hch : Int.fdiv 3150 ((Nat.sqrt copies.toNat : ℕ) : ℤ) ≠ 0) :
    create_print_sheet (DecodeResult.ok w h) copies 8.5 11 300 =
      Except.ok (some (default_layout w h (Nat.sqrt copies.toNat))) := by
  unfold create_print_sheet
  rw [if_neg (not_lt.mpr h0), page_px_85, page_px_11]
  unfold compute_layout
  rw [margin_px_300]
  norm_num [hg, hh, hch, default_layout]
  rfl

theorem resize_dims_fits (w h : ℕ) (cw ch : ℤ) (hh : 0 < h) (hcw : 0 ≤ cw) (hch : 0 < ch) :
    (resize_dims w h cw ch).1 ≤ cw ∧ (resize_dims w h cw ch).2 ≤ ch ∧
      0 ≤ (resize_dims w h cw ch).1 ∧ 0 ≤ (resize_dims w h cw ch).2 ∧
      ((resize_dims w h cw ch).1 = cw ∨ (resize_dims w h cw ch).2 = ch) := by
  have hh' : (0 : ℚ) < (h : ℚ) := by exact_mod_cast hh
  have hch' : (0 : ℚ) < (ch : ℚ) := by exact_mod_cast hch
  have hcw' : (0 : ℚ) ≤ (cw : ℚ) := by exact_mod_cast hcw
  unfold resize_dims
  by_cases hc : ((w : ℚ) / (h : ℚ)) > ((cw : ℚ) / (ch : ℚ))
  · rw [if_pos hc]
    have ha : (0 : ℚ) < (w : ℚ) / (h : ℚ) :=
      lt_of_le_of_lt (div_nonneg hcw' hch'.le) hc
    have hq0 : (0 : ℚ) ≤ (cw : ℚ) / ((w : ℚ) / (h : ℚ)) := div_nonneg hcw' ha.le
    have hqlt : (cw : ℚ) / ((w : ℚ) / (h : ℚ)) < (ch : ℚ) := by
      rw [div_lt_iff₀ ha]
      have h1 : (cw : ℚ) < ((w : ℚ) / (h : ℚ)) * (ch : ℚ) := (div_lt_iff₀ hch').mp hc
      linarith [h1]
    rw [pyInt_of_nonneg hq0]
    exact ⟨le_refl _, le_of_lt (Int.floor_lt.mpr hqlt), hcw,
      Int.floor_nonneg.mpr hq0, Or.inl rfl⟩
  · rw [if_neg hc]
    push_neg at hc
    have hchne : (ch : ℚ) ≠ 0 := ne_of_gt hch'
    have hq0 : (0 : ℚ) ≤ (ch : ℚ) * ((w : ℚ) / (h : ℚ)) :=
      mul_nonneg hch'.le (div_nonneg (Nat.cast_nonneg w) hh'.le)
    have hqle : (ch : ℚ) * ((w : ℚ) / (h : ℚ)) ≤ (cw : ℚ) := by
      have h1 : (ch : ℚ) * ((w : ℚ) / (h : ℚ)) ≤ (ch : ℚ) * ((cw : ℚ) / (ch : ℚ)) :=
        mul_le_mul_of_nonneg_left hc hch'.le
      have h2 : (ch : ℚ) * ((cw : ℚ) / (ch : ℚ)) = (cw : ℚ) := by
        field_simp
      linarith [h1, h2.le]
    rw [pyInt_of_nonneg hq0]
    refine ⟨?_, le_refl _, Int.floor_nonneg.mpr hq0, hch.le, Or.inr rfl⟩
    calc ⌊(ch : ℚ) * ((w : ℚ) / (h : ℚ))⌋ ≤ ⌊((cw : ℤ) : ℚ)⌋ := Int.floor_le_floor hqle
      _ = cw := Int.floor_intCast cw

theorem placements_of_length (g : ℕ) (cw ch m nw nh : ℤ) :
    (placements_of g cw ch m nw nh).length = g * g := by
  simp [placements_of, List.flatMap_def, Function.comp_def, List.map_const',
    List.sum_replicate, smul_eq_mul]

theorem mem_placements_of {g : ℕ} {cw ch m nw nh : ℤ} {p : ℤ × ℤ}
    (hp : p ∈ placements_of g cw ch m nw nh) :
    ∃ row col : ℕ, row < g ∧ col < g ∧
      p = (m + (col : ℤ) * cw + Int.fdiv (cw - nw) 2,
           m + (row : ℤ) * ch + Int.fdiv (ch - nh) 2) := by
  unfold placements_of at hp
  rw [List.mem_flatMap] at hp
  obtain ⟨row, hrow, hpin⟩ := hp
  rw [List.mem_map] at hpin
  obtain ⟨col, hcol, hpe⟩ := hpin
  rw [List.mem_range] at hrow
  rw [List.mem_range] at hcol
  exact ⟨row, col, hrow, hcol, hpe.symm⟩

theorem placements_of_bounds {g : ℕ} {cw ch m nw nh availW availH : ℤ}
    (hcw : 0 ≤ cw) (hch : 0 ≤ ch) (hnw : nw ≤ cw) (hnh : nh ≤ ch)
    (hgw : (g : ℤ) * cw ≤ availW) (hgh : (g : ℤ) * ch ≤ availH) :
    ∀ p ∈ placements_of g cw ch m nw nh,
      m ≤ p.1 ∧ m ≤ p.2 ∧ p.1 + nw ≤ m + availW ∧ p.2 + nh ≤ m + availH := by
  intro p hp
  obtain ⟨row, col, hrow, hcol, hpe⟩ := mem_placements_of hp
  subst hpe
  dsimp only
  have hfw0 : 0 ≤ Int.fdiv (cw - nw) 2 := Int.fdiv_nonneg (by omega) (by norm_num)
  have hfh0 : 0 ≤ Int.fdiv (ch - nh) 2 := Int.fdiv_nonneg (by omega) (by norm_num)
  have hfw : Int.fdiv (cw - nw) 2 ≤ cw - nw := by
    rw [Int.fdiv_eq_ediv _ (by norm_num)]
    exact Int.ediv_le_self 2 (by omega)
  have hfh : Int.fdiv (ch - nh) 2 ≤ ch - nh := by
    rw [Int.fdiv_eq_ediv _ (by norm_num)]
    exact Int.ediv_le_self 2 (by omega)
  have hcol0 : 0 ≤ (col : ℤ) * cw := mul_nonneg (Int.natCast_nonneg col) hcw
  have hrow0 : 0 ≤ (row : ℤ) * ch := mul_nonneg (Int.natCast_nonneg row) hch
  have hcol' : ((col : ℤ) + 1) * cw ≤ (g : ℤ) * cw := by
    apply mul_le_mul_of_nonneg_right _ hcw
    exact_mod_cast Nat.succ_le_of_lt hcol
  have hrow' : ((row : ℤ) + 1) * ch ≤ (g : ℤ) * ch := by
    apply mul_le_mul_of_nonneg_right _ hch
    exact_mod_cast Nat.succ_le_of_lt hrow
  have ecol : ((col : ℤ) + 1) * cw = (col : ℤ) * cw + cw := by ring
  have erow : ((row : ℤ) + 1) * ch = (row : ℤ) * ch + ch := by ring
  refine ⟨by linarith, by linarith, by linarith, by linarith⟩

theorem sqrt_9 : Nat.sqrt 9 = 3 :=
  sqrt_eq_of (by norm_num) (by norm_num)

theorem sqrt_10 : Nat.sqrt 10 = 3 :=
  sqrt_eq_of (by norm_num) (by norm_num)

theorem sqrt_9928801 : Nat.sqrt 9928801 = 3151 :=
  sqrt_eq_of (by norm_num) (by norm_num)

theorem resize_400_200 : resize_dims 400 200 800 1050 = (800, 400) := by
  norm_num [resize_dims, pyInt]

theorem default_layout_400 : default_layout 400 200 3 = layout400 := by
  have f1 : Int.fdiv 2400 ((3 : ℕ) : ℤ) = 800 := by decide
  have f2 : Int.fdiv 3150 ((3 : ℕ) : ℤ) = 1050 := by decide
  unfold default_layout layout400
  simp only [f1, f2, resize_400_200]
  decide

theorem create_400_200_9 :
    create_print_sheet (DecodeResult.ok 400 200) 9 8.5 11 300 = Except.ok (some layout400) := by
  have hs : Nat.sqrt (9 : ℤ).toNat = 3 := by
    rw [(rfl : (9 : ℤ).toNat = 9)]
    exact sqrt_9
  have h := create_default_eq 400 200 9 (by norm_num)
    (by rw [hs]; norm_num) (by norm_num) (by rw [hs]; decide)
  rw [h, hs, default_layout_400]

/-! ### Claims -/

/-- C1 (amended): for every positive `copies` below 3151² = 9928801, the call
succeeds and places exactly `floor(sqrt(copies))²` copies (so 9 → 9 placed,
10 → 9 placed, 3 → 1 placed).  The bound is forced: at `copies = 3151²` the
integer cell height with the default page is `3150 // 3151 = 0` and the code
raises an uncaught `ZeroDivisionError` instead of placing anything. -/
theorem placed_count_eq_sqrt_sq (w h : ℕ) (copies : ℤ) (hh : 0 < h)
    (h1 : 1 ≤ copies) (h2 : copies < 9928801) :
    ∃ L, create_print_sheet (DecodeResult.ok w h) copies 8.5 11 300 = Except.ok (some L) ∧
      L.gridSize = Nat.sqrt copies.toNat ∧
      L.placements.length = Nat.sqrt copies.toNat ^ 2 := by
  have h0 : 0 ≤ copies := by omega
  have hg : Nat.sqrt copies.toNat ≠ 0 := by
    have := Nat.sqrt_pos.mpr (show 0 < copies.toNat by omega)
    omega
  have hgle : Nat.sqrt copies.toNat ≤ 3150 := by
    have := Nat.sqrt_lt.mpr (show copies.toNat < 3151 * 3151 by omega)
    omega
  have hch : Int.fdiv 3150 ((Nat.sqrt copies.toNat : ℕ) : ℤ) ≠ 0 := by
    have hgpos : (0 : ℤ) < ((Nat.sqrt copies.toNat : ℕ) : ℤ) := by
      exact_mod_cast Nat.pos_of_ne_zero hg
    have hle : ((Nat.sqrt copies.toNat : ℕ) : ℤ) ≤ 3150 := by exact_mod_cast hgle
    rw [Int.fdiv_eq_ediv _ (le_of_lt hgpos)]
    have h1' : (1 : ℤ) ≤ 3150 / ((Nat.sqrt copies.toNat : ℕ) : ℤ) := by
      rw [Int.le_ediv_iff_mul_le hgpos]
      linarith
    omega
  refine ⟨default_layout w h (Nat.sqrt copies.toNat),
    create_default_eq w h copies h0 hg (by omega) hch, rfl, ?_⟩
  unfold default_layout
  dsimp only
  rw [placements_of_length, pow_two]

/-- C1 witness at `copies = 10` (a 400×200 image): 9 copies are placed. -/
theorem placed_count_eq_sqrt_sq_witness :
    0 < 200 ∧ 1 ≤ (10 : ℤ) ∧ (10 : ℤ) < 9928801 ∧
      ∃ L, create_print_sheet (DecodeResult.ok 400 200) 10 8.5 11 300 = Except.ok (some L) ∧
        L.gridSize = Nat.sqrt (10 : ℤ).toNat ∧
        L.placements.length = Nat.sqrt (10 : ℤ).toNat ^ 2 :=
  ⟨by norm_num, by norm_num, by norm_num,
    placed_count_eq_sqrt_sq 400 200 10 (by norm_num) (by norm_num) (by norm_num)⟩

/-- C1 counterexample: `copies = 9928801 = 3151²` is a positive copy count at
which `create_print_sheet` does not place `floor(sqrt(copies))²` copies — it
raises an uncaught `ZeroDivisionError` (`card_height = 3150 // 3151 = 0`, so
`card_width / card_height` divides by zero) and places nothing. -/
theorem placed_count_huge_copies_fault :
    1 ≤ (9928801 : ℤ) ∧
      create_print_sheet (DecodeResult.ok 400 200) 9928801 8.5 11 300 =
        Except.error PyError.zeroDivisionError := by
  refine ⟨by norm_num, ?_⟩
  have hs : Nat.sqrt (9928801 : ℤ).toNat = 3151 := by
    rw [(rfl : (9928801 : ℤ).toNat = 9928801)]
    exact sqrt_9928801
  have f0 : Int.fdiv 3150 (3151 : ℤ) = 0 := by decide
  unfold create_print_sheet
  rw [if_neg (by norm_num : ¬ (9928801 : ℤ) < 0), page_px_85, page_px_11]
  unfold compute_layout
  rw [margin_px_300, hs]
  norm_num [f0]
  rfl

/-- C2: for `copies < 1` the code does not raise any explicit
`InvalidConfiguration` error: `copies = 0` propagates a raw `ZeroDivisionError`
from `available_width // grid_size`, and negative `copies` propagates a raw
`ValueError` from `math.sqrt` — the spec requires an explicit
`InvalidConfiguration` failure instead. -/
theorem copies_lt_one_raises_raw_exception :
    create_print_sheet (DecodeResult.ok 400 200) 0 8.5 11 300 =
        Except.error PyError.zeroDivisionError ∧
      create_print_sheet (DecodeResult.ok 400 200) (-3) 8.5 11 300 =
        Except.error PyError.valueError :=
  ⟨rfl, rfl⟩

/-- C3: for positive source dimensions and positive cell dimensions, the
resized dimensions never exceed the cell on either axis and at least one axis
matches the cell exactly. -/
theorem resized_fits_within_cell (w h : ℕ) (cw ch : ℤ)
    (hw : 0 < w) (hh : 0 < h) (hcw : 0 < cw) (hch : 0 < ch) :
    (resize_dims w h cw ch).1 ≤ cw ∧ (resize_dims w h cw ch).2 ≤ ch ∧
      ((resize_dims w h cw ch).1 = cw ∨ (resize_dims w h cw ch).2 = ch) := by
  obtain ⟨a, b, -, -, c⟩ := resize_dims_fits w h cw ch hh hcw.le hch
  exact ⟨a, b, c⟩

/-- C3 witness at a 400×200 image in an 800×1050 cell. -/
theorem resized_fits_within_cell_witness :
    0 < 400 ∧ 0 < 200 ∧ (0 : ℤ) < 800 ∧ (0 : ℤ) < 1050 ∧
      ((resize_dims 400 200 800 1050).1 ≤ 800 ∧ (resize_dims 400 200 800 1050).2 ≤ 1050 ∧
        ((resize_dims 400 200 800 1050).1 = 800 ∨ (resize_dims 400 200 800 1050).2 = 1050)) :=
  ⟨by norm_num, by norm_num, by norm_num, by norm_num,
    resized_fits_within_cell 400 200 800 1050 (by norm_num) (by norm_num)
      (by norm_num) (by norm_num)⟩

/-- C4: whenever `create_print_sheet` succeeds under the default page
configuration with positive `copies` and positive source dimensions, every
placement is at least `margin_px` on both axes, and placement plus resized
size never exceeds `page_px − margin_px` on either axis. -/
theorem placements_within_page_bounds (w h : ℕ) (copies : ℤ) (L : LayoutResult)
    (hw : 0 < w) (hh : 0 < h) (hc : 1 ≤ copies)
    (hL : create_print_sheet (DecodeResult.ok w h) copies 8.5 11 300 = Except.ok (some L)) :
    ∀ p ∈ L.placements,
      L.marginPx ≤ p.1 ∧ L.marginPx ≤ p.2 ∧
        p.1 + L.newWidth ≤ L.pageWidthPx - L.marginPx ∧
        p.2 + L.newHeight ≤ L.pageHeightPx - L.marginPx := by
  have h0 : 0 ≤ copies := by omega
  have hhne : h ≠ 0 := by omega
  by_cases hg : Nat.sqrt copies.toNat = 0
  · exfalso
    unfold create_print_sheet compute_layout at hL
    rw [if_neg (not_lt.mpr h0)] at hL
    dsimp only at hL
    rw [if_pos hg] at hL
    exact Except.noConfusion hL
  by_cases hch : Int.fdiv 3150 ((Nat.sqrt copies.toNat : ℕ) : ℤ) = 0
  · exfalso
    unfold create_print_sheet compute_layout at hL
    rw [if_neg (not_lt.mpr h0)] at hL
    dsimp only at hL
    rw [page_px_85, page_px_11, margin_px_300, if_neg hg, if_neg hhne] at hL
    rw [show (3300 : ℤ) - 2 * 75 = 3150 by norm_num] at hL
    rw [if_pos hch] at hL
    exact Except.noConfusion hL
  rw [create_default_eq w h copies h0 hg hhne hch] at hL
  have hLe : default_layout w h (Nat.sqrt copies.toNat) = L := by
    simpa using hL
  subst hLe
  have hgpos : (0 : ℤ) < ((Nat.sqrt copies.toNat : ℕ) : ℤ) := by
    exact_mod_cast Nat.pos_of_ne_zero hg
  have hcw0 : 0 ≤ Int.fdiv 2400 ((Nat.sqrt copies.toNat : ℕ) : ℤ) :=
    Int.fdiv_nonneg (by norm_num) (le_of_lt hgpos)
  have hch0 : 0 ≤ Int.fdiv 3150 ((Nat.sqrt copies.toNat : ℕ) : ℤ) :=
    Int.fdiv_nonneg (by norm_num) (le_of_lt hgpos)
  have hchpos : 0 < Int.fdiv 3150 ((Nat.sqrt copies.toNat : ℕ) : ℤ) :=
    lt_of_le_of_ne hch0 (Ne.symm hch)
  obtain ⟨hnwle, hnhle, hnw0, hnh0, -⟩ :=
    resize_dims_fits w h (Int.fdiv 2400 ((Nat.sqrt copies.toNat : ℕ) : ℤ))
      (Int.fdiv 3150 ((Nat.sqrt copies.toNat : ℕ) : ℤ)) hh hcw0 hchpos
  have hgw : ((Nat.sqrt copies.toNat : ℕ) : ℤ) *
      Int.fdiv 2400 ((Nat.sqrt copies.toNat : ℕ) : ℤ) ≤ 2400 := by
    rw [Int.fdiv_eq_ediv _ (le_of_lt hgpos), mul_comm]
    exact Int.ediv_mul_le 2400 (ne_of_gt hgpos)
  have hgh : ((Nat.sqrt copies.toNat : ℕ) : ℤ) *
      Int.fdiv 3150 ((Nat.sqrt copies.toNat : ℕ) : ℤ) ≤ 3150 := by
    rw [Int.fdiv_eq_ediv _ (le_of_lt hgpos), mul_comm]
    exact Int.ediv_mul_le 3150 (ne_of_gt hgpos)
  intro p hp
  have hb := placements_of_bounds hcw0 hch0 hnwle hnhle hgw hgh p
    (by simpa [default_layout] using hp)
  unfold default_layout
  dsimp only
  refine ⟨hb.1, hb.2.1, ?_, ?_⟩
  · have := hb.2.2.1
    omega
  · have := hb.2.2.2
    omega

/-- C4 witness: the 400×200 image at `copies = 9`; the first placement
`(75, 400)` of `layout400` lies within the page bounds. -/
theorem placements_within_page_bounds_witness :
    0 < 400 ∧ 0 < 200 ∧ 1 ≤ (9 : ℤ) ∧
      create_print_sheet (DecodeResult.ok 400 200) 9 8.5 11 300 =
        Except.ok (some layout400) ∧
      ((75 : ℤ), (400 : ℤ)) ∈ layout400.placements ∧
      (layout400.marginPx ≤ (75 : ℤ) ∧ layout400.marginPx ≤ (400 : ℤ) ∧
        (75 : ℤ) + layout400.newWidth ≤ layout400.pageWidthPx - layout400.marginPx ∧
        (400 : ℤ) + layout400.newHeight ≤ layout400.pageHeightPx - layout400.marginPx) :=
  ⟨by norm_num, by norm_num, by norm_num, create_400_200_9, by decide,
    placements_within_page_bounds 400 200 9 layout400 (by norm_num) (by norm_num)
      (by norm_num) create_400_200_9 ((75 : ℤ), (400 : ℤ)) (by decide)⟩

/-- C5: the end-to-end scenario — a 400×200 source image, default page 8.5×11,
dpi 300, copies 9 — yields `page_px = (2550, 3300)`, `margin_px = 75`,
`grid_n = 3`, `available = (2400, 3150)`, `cell_px = (800, 1050)`, resized
dimensions `(800, 400)` (all recorded in `layout400`), and the nine placements
`(75 + c*800 + 0, 75 + r*1050 + 325)` for `r, c ∈ \x7b0, 1, 2\x7d`. -/
theorem end_to_end_400x200_scenario :
    create_print_sheet (DecodeResult.ok 400 200) 9 8.5 11 300 =
        Except.ok (some layout400) ∧
      layout400.placements = (List.range 3).flatMap (fun (r : ℕ) =>
        (List.range 3).map (fun (c : ℕ) =>
          ((75 : ℤ) + (c : ℤ) * 800 + 0, (75 : ℤ) + (r : ℤ) * 1050 + 325))) :=
  ⟨create_400_200_9, by decide⟩

/-- C6 counterexample: with `copies = 0` and a directory of two decodable
files, the first file's layout error (a raw `ZeroDivisionError`) is not caught
anywhere: the whole batch aborts with the exception and the second file is
never processed, so a failure during one file's processing does abort the
remaining batch. -/
theorem layout_fault_aborts_batch :
    process_directory [DecodeResult.ok 400 200, DecodeResult.ok 400 200] 0 =
      Except.error PyError.zeroDivisionError :=
  rfl

/-- C6 (amended): only decode failures are caught (inside `create_print_sheet`,
which logs and returns `False`); a file that fails to decode contributes
nothing and the batch continues with the remaining files unchanged.  Layout
errors are not caught and abort the batch (see the counterexample). -/
theorem decode_failure_does_not_abort_batch (copies : ℤ) (files : List DecodeResult)
    (h0 : 0 ≤ copies) :
    process_directory (DecodeResult.fail :: files) copies =
      process_directory files copies := by
  unfold process_directory
  simp only [List.foldlM_cons, create_fail_eq copies 8.5 11 300 h0]
  rfl

/-- C6 witness: a corrupt file followed by a valid one, default `copies = 9`. -/
theorem decode_failure_does_not_abort_batch_witness :
    0 ≤ (9 : ℤ) ∧
      process_directory (DecodeResult.fail :: [DecodeResult.ok 400 200]) 9 =
        process_directory [DecodeResult.ok 400 200] 9 :=
  ⟨by norm_num, decode_failure_does_not_abort_batch 9 [DecodeResult.ok 400 200] (by norm_num)⟩

/-- C7 counterexample: for the 2-valid-plus-1-corrupt scenario the entire
observable summary of `process_directory` is the printed line
`Processed 2 images` (the Python function returns `None`): it reports the
success count 2 but nowhere the attempted count 3 — no character `3` occurs in
it — so no `ProcessingSummary\x7battempted, succeeded\x7d` is returned or reported. -/
theorem summary_lacks_attempted_count :
    process_directory [DecodeResult.ok 400 200, DecodeResult.ok 400 200, DecodeResult.fail] 9 =
        Except.ok "Processed 2 images" ∧
      ('2' ∈ "Processed 2 images".data ∧ ¬ ('3' ∈ "Processed 2 images".data)) := by
  refine ⟨?_, by decide, by decide⟩
  unfold process_directory
  simp only [List.foldlM_cons, List.foldlM_nil, create_400_200_9,
    create_fail_eq 9 8.5 11 300 (by norm_num)]
  rfl

/-- C7 (amended): `process_directory` reports only the count of successfully
processed files, printing `Processed N images` and returning no summary value;
for a directory of 2 valid images and 1 corrupt file it reports 2 and the
corrupt file (here placed between the valid ones) does not stop processing. -/
theorem summary_reports_success_count_only :
    process_directory [DecodeResult.ok 400 200, DecodeResult.fail, DecodeResult.ok 400 200] 9 =
      Except.ok "Processed 2 images" := by
  unfold process_directory
  simp only [List.foldlM_cons, List.foldlM_nil, create_400_200_9,
    create_fail_eq 9 8.5 11 300 (by norm_num)]
  rfl

/-- C8 counterexample: at `dpi = 303` the code computes `margin_px =
int(0.25 * 303) = 75` by truncation, whereas rounding to nearest gives
`round(75.75) = 76`: the claimed round-to-nearest formula is false. -/
theorem margin_px_truncates_not_rounds :
    margin_px 303 = 75 ∧ spec_round ((0.25 : ℚ) * 303) = 76 ∧
      margin_px 303 ≠ spec_round ((0.25 : ℚ) * 303) := by
  refine ⟨?_, ?_, ?_⟩ <;> norm_num [margin_px, pyInt, spec_round]

/-- C8 (amended): for nonnegative page size and dpi, `page_px` and `margin_px`
are computed by `int()` truncation, i.e. the floor of `inches * dpi` and of
`0.25 * dpi` — not by rounding to nearest (the two agree on products that are
exact integers, such as the 8.5×11 at 300 dpi defaults). -/
theorem page_and_margin_are_floors (inches dpi : ℚ) (hi : 0 ≤ inches) (hd : 0 ≤ dpi) :
    page_px inches dpi = ⌊inches * dpi⌋ ∧ margin_px dpi = ⌊(0.25 : ℚ) * dpi⌋ := by
  constructor
  · unfold page_px
    exact pyInt_of_nonneg (mul_nonneg hi hd)
  · unfold margin_px
    exact pyInt_of_nonneg (mul_nonneg (by norm_num) hd)

/-- C8 witness at the default 8.5 inches and 300 dpi. -/
theorem page_and_margin_are_floors_witness :
    0 ≤ (8.5 : ℚ) ∧ 0 ≤ (300 : ℚ) ∧
      page_px 8.5 300 = ⌊(8.5 : ℚ) * 300⌋ ∧ margin_px 300 = ⌊(0.25 : ℚ) * 300⌋ :=
  ⟨by norm_num, by norm_num,
    (page_and_margin_are_floors 8.5 300 (by norm_num) (by norm_num)).1,
    (page_and_margin_are_floors 8.5 300 (by norm_num) (by norm_num)).2⟩

/-- C9: the resized dimensions preserve the source aspect ratio to within one
pixel of rounding on the scaled dimension: either the height is within one
pixel below the exactly-proportional `new_width * h / w`, or the width is
within one pixel below the exactly-proportional `new_height * w / h`. -/
theorem resized_aspect_within_one_pixel (w h : ℕ) (cw ch : ℤ)
    (hw : 0 < w) (hh : 0 < h) (hcw : 0 ≤ cw) (hch : 0 < ch) :
    (((resize_dims w h cw ch).1 : ℚ) * h / w - 1 < ((resize_dims w h cw ch).2 : ℚ) ∧
        ((resize_dims w h cw ch).2 : ℚ) ≤ ((resize_dims w h cw ch).1 : ℚ) * h / w) ∨
      (((resize_dims w h cw ch).2 : ℚ) * w / h - 1 < ((resize_dims w h cw ch).1 : ℚ) ∧
        ((resize_dims w h cw ch).1 : ℚ) ≤ ((resize_dims w h cw ch).2 : ℚ) * w / h) := by
  have hw' : (0 : ℚ) < (w : ℚ) := by exact_mod_cast hw
  have hh' : (0 : ℚ) < (h : ℚ) := by exact_mod_cast hh
  have hch' : (0 : ℚ) < (ch : ℚ) := by exact_mod_cast hch
  have hcw' : (0 : ℚ) ≤ (cw : ℚ) := by exact_mod_cast hcw
  unfold resize_dims
  by_cases hc : ((w : ℚ) / (h : ℚ)) > ((cw : ℚ) / (ch : ℚ))
  · rw [if_pos hc]
    left
    dsimp only
    have ha : (0 : ℚ) < (w : ℚ) / (h : ℚ) :=
      lt_of_le_of_lt (div_nonneg hcw' hch'.le) hc
    have hq0 : (0 : ℚ) ≤ (cw : ℚ) / ((w : ℚ) / (h : ℚ)) := div_nonneg hcw' ha.le
    have key : (cw : ℚ) / ((w : ℚ) / (h : ℚ)) = (cw : ℚ) * (h : ℚ) / (w : ℚ) := by
      field_simp
    rw [pyInt_of_nonneg hq0, ← key]
    exact ⟨Int.sub_one_lt_floor _, Int.floor_le _⟩
  · rw [if_neg hc]
    right
    dsimp only
    have hq0 : (0 : ℚ) ≤ (ch : ℚ) * ((w : ℚ) / (h : ℚ)) :=
      mul_nonneg hch'.le (div_nonneg (Nat.cast_nonneg w) hh'.le)
    have key : (ch : ℚ) * ((w : ℚ) / (h : ℚ)) = (ch : ℚ) * (w : ℚ) / (h : ℚ) :=
      (mul_div_assoc _ _ _).symm
    rw [pyInt_of_nonneg hq0, ← key]
    exact ⟨Int.sub_one_lt_floor _, Int.floor_le _⟩

/-- C9 witness at a 400×200 image in an 800×1050 cell: resized to 800×400,
and `800 * 200 / 400 - 1 = 399 < 400 ≤ 400`. -/
theorem resized_aspect_within_one_pixel_witness :
    0 < 400 ∧ 0 < 200 ∧ (0 : ℤ) ≤ 800 ∧ (0 : ℤ) < 1050 ∧
      ((((resize_dims 400 200 800 1050).1 : ℚ) * 200 / 400 - 1 <
            ((resize_dims 400 200 800 1050).2 : ℚ) ∧
          ((resize_dims 400 200 800 1050).2 : ℚ) ≤
            ((resize_dims 400 200 800 1050).1 : ℚ) * 200 / 400) ∨
        (((resize_dims 400 200 800 1050).2 : ℚ) * 400 / 200 - 1 <
            ((resize_dims 400 200 800 1050).1 : ℚ) ∧
          ((resize_dims 400 200 800 1050).1 : ℚ) ≤
            ((resize_dims 400 200 800 1050).2 : ℚ) * 400 / 200)) :=
  ⟨by norm_num, by norm_num, by norm_num, by norm_num,
    resized_aspect_within_one_pixel 400 200 800 1050 (by norm_num) (by norm_num)
      (by norm_num) (by norm_num)⟩

/-- C10: the resized dimensions are not guaranteed positive: a 2000×1 source
image (positive width and height) with the default configuration (copies 9,
cells 800×1050, both positive) is resized to width 800 and height 0. -/
theorem resized_height_zero_possible :
    0 < 2000 ∧ 0 < 1 ∧
      ∃ L, create_print_sheet (DecodeResult.ok 2000 1) 9 8.5 11 300 = Except.ok (some L) ∧
        L.cardWidth = 800 ∧ L.cardHeight = 1050 ∧ L.newWidth = 800 ∧ L.newHeight = 0 := by
  have hs : Nat.sqrt (9 : ℤ).toNat = 3 := by
    rw [(rfl : (9 : ℤ).toNat = 9)]
    exact sqrt_9
  have h := create_default_eq 2000 1 9 (by norm_num)
    (by rw [hs]; norm_num) (by norm_num) (by rw [hs]; decide)
  rw [hs] at h
  have f1 : Int.fdiv 2400 ((3 : ℕ) : ℤ) = 800 := by decide
  have f2 : Int.fdiv 3150 ((3 : ℕ) : ℤ) = 1050 := by decide
  have hr : resize_dims 2000 1 800 1050 = (800, 0) := by
    norm_num [resize_dims, pyInt]
  refine ⟨by norm_num, by norm_num, default_layout 2000 1 3, h, ?_, ?_, ?_, ?_⟩
  · simp only [default_layout, f1]
  · simp only [default_layout, f2]
  · simp only [default_layout, f1, f2, hr]
  · simp only [default_layout, f1, f2, hr]

end CardSheet
